import Mathlib

/-!
Shallow embedding of `src/server.js` (dice-game session coordinator).

The server keeps three pieces of in-memory state:
- `players`      : a JS `Map` from role name to `{ socketId, role }`;
- `socketToRole` : a JS `Map` from socket id to role name;
- `readySet`     : a JS `Set` of role names.

JS `Map`s are modelled as association lists in insertion order with
unique keys (`Map.set` replaces in place when the key is present,
appends otherwise); JS `Set`s as lists in insertion order without
duplicates.  Socket ids are opaque identities, modelled as `Nat`.
Outbound `emit` calls are collected into an event list; `Math.random`
is an oracle of rationals in `[0, 1)` supplied per call site.
-/

abbrev Role := String
abbrev SocketId := Nat

/-- Mirrors `{ socketId: socket.id, role }` stored as a `players` value. -/
structure Player where
  socketId : SocketId
  role : Role
deriving DecidableEq, Repr

/-- `Map.get`: the value of the first (unique) entry with the given key. -/
def mapGet {α β : Type} [DecidableEq α] (m : List (α × β)) (k : α) : Option β :=
  (m.find? (fun e => decide (e.1 = k))).map Prod.snd

/-- `Map.set`: replace in place if the key is present, else append. -/
def mapSet {α β : Type} [DecidableEq α] (m : List (α × β)) (k : α) (v : β) :
    List (α × β) :=
  if k ∈ m.map Prod.fst then m.map (fun e => if e.1 = k then (k, v) else e)
  else m ++ [(k, v)]

/-- `Map.delete`: drop the entry with the given key. -/
def mapDelete {α β : Type} [DecidableEq α] (m : List (α × β)) (k : α) :
    List (α × β) :=
  m.filter (fun e => decide (e.1 ≠ k))

/-- `Set.add`: append if absent (JS sets keep insertion order). -/
def setAdd {α : Type} [DecidableEq α] (s : List α) (a : α) : List α :=
  if a ∈ s then s else s ++ [a]

/-- `Set.delete`: drop the element. -/
def setDelete {α : Type} [DecidableEq α] (s : List α) (a : α) : List α :=
  s.filter (fun x => decide (x ≠ a))

/-- The whole mutable state of the coordinator. -/
structure ServerState where
  players : List (Role × Player)
  socketToRole : List (SocketId × Role)
  readySet : List Role
deriving DecidableEq, Repr

/-- State at process start: all three containers empty. -/
def initState : ServerState := ⟨[], [], []⟩

/-- `const FIXED_ROLES = ['建广', '建国', '李川', '凯宁', '鸿晓']`. -/
def FIXED_ROLES : List Role := ["建广", "建国", "李川", "凯宁", "鸿晓"]

/-- Payloads of the outbound socket events. -/
inductive OutMsg where
  | roleAssignedOk (role : Role)
  | roleAssignedErr (message : String)
  | playersUpdate (roster : List Role)
  | someoneReady (role : Role)
  | startRoll (roundPoints : List (Role × List ℤ))
  | errorMsg (message : String)
deriving DecidableEq, Repr

/-- An emission together with its recipients: `socket.emit` goes to one
socket, `io.emit` to every connection, `socket.broadcast.emit` to every
connection except the sender. -/
inductive Event where
  | emitTo (sid : SocketId) (m : OutMsg)
  | emitAll (m : OutMsg)
  | emitOthers (sid : SocketId) (m : OutMsg)
deriving DecidableEq, Repr

/-- `generateDicePoints`: five values `Math.floor(Math.random() * 6) + 1`,
with the five `Math.random()` calls supplied by the oracle `random`. -/
def generateDicePoints (random : Nat → ℚ) : List ℤ :=
  (List.range 5).map (fun i => ⌊random i * 6⌋ + 1)

/-- The payload of `broadcastPlayers`: the roles of the `players` values,
in map order. -/
def playerList (s : ServerState) : List Role :=
  s.players.map (fun e => e.2.role)

/-- The keys of `players`, i.e. `Array.from(players.keys())`. -/
def onlineRoles (s : ServerState) : List Role :=
  s.players.map Prod.fst

/-- The guard of `tryStartRoll`:
`onlineRoles.length > 0 && onlineRoles.every(role => readySet.has(role))`. -/
def allReady (s : ServerState) : Prop :=
  0 < (onlineRoles s).length ∧ ∀ r ∈ onlineRoles s, r ∈ s.readySet

instance (s : ServerState) : Decidable (allReady s) := by
  unfold allReady; infer_instance

/-- `tryStartRoll`: if every online role is ready (and someone is online),
generate dice for each online role, broadcast `startRoll`, clear the ready
set; otherwise do nothing.  `random role` is the oracle feeding the
`generateDicePoints()` call made for `role`. -/
def tryStartRoll (random : Role → Nat → ℚ) (s : ServerState) :
    ServerState × List Event :=
  if allReady s then
    ({ s with readySet := [] },
     [Event.emitAll (OutMsg.startRoll
        ((onlineRoles s).map (fun role => (role, generateDicePoints (random role)))))])
  else (s, [])

/-- The `selectRole` handler: validate the role, check it is free, check
the socket has not claimed before; on success record the assignment,
reply to the requester, broadcast the roster. -/
def selectRole (s : ServerState) (sid : SocketId) (role : Role) :
    ServerState × List Event :=
  if role ∉ FIXED_ROLES then
    (s, [Event.emitTo sid (OutMsg.roleAssignedErr "无效的角色")])
  else if role ∈ s.players.map Prod.fst then
    (s, [Event.emitTo sid (OutMsg.roleAssignedErr "该角色已被选走")])
  else if sid ∈ s.socketToRole.map Prod.fst then
    (s, [Event.emitTo sid (OutMsg.roleAssignedErr "你已经选择过角色，不能更换")])
  else
    let s' : ServerState :=
      { s with players := mapSet s.players role ⟨sid, role⟩,
               socketToRole := mapSet s.socketToRole sid role }
    (s', [Event.emitTo sid (OutMsg.roleAssignedOk role),
          Event.emitAll (OutMsg.playersUpdate (playerList s'))])

/-- The `playerReady` handler: the role must be online and owned by the
calling socket, else `errorMsg` to the caller only; on success add the
role to the ready set, tell the other sockets, then `tryStartRoll`. -/
def playerReady (random : Role → Nat → ℚ) (s : ServerState) (sid : SocketId)
    (role : Role) : ServerState × List Event :=
  match mapGet s.players role with
  | none => (s, [Event.emitTo sid (OutMsg.errorMsg "你不是该角色或角色不在线")])
  | some player =>
    if player.socketId ≠ sid then
      (s, [Event.emitTo sid (OutMsg.errorMsg "你不是该角色或角色不在线")])
    else
      let s1 : ServerState := { s with readySet := setAdd s.readySet role }
      let res := tryStartRoll random s1
      (res.1, Event.emitOthers sid (OutMsg.someoneReady role) :: res.2)

/-- The `disconnect` handler: if the socket owned a role, drop it from all
three containers and broadcast the roster; otherwise do nothing. -/
def handleDisconnect (s : ServerState) (sid : SocketId) :
    ServerState × List Event :=
  match mapGet s.socketToRole sid with
  | none => (s, [])
  | some role =>
    let s' : ServerState :=
      { players := mapDelete s.players role,
        socketToRole := mapDelete s.socketToRole sid,
        readySet := setDelete s.readySet role }
    (s', [Event.emitAll (OutMsg.playersUpdate (playerList s'))])

/-- An inbound client event, with the randomness its handling consumes. -/
inductive GameEvent where
  | select (sid : SocketId) (role : Role)
  | ready (sid : SocketId) (role : Role) (random : Role → Nat → ℚ)
  | disconnect (sid : SocketId)

/-- One step of the coordinator (state part of the handler). -/
def step (s : ServerState) (e : GameEvent) : ServerState :=
  match e with
  | GameEvent.select sid role => (selectRole s sid role).1
  | GameEvent.ready sid role random => (playerReady random s sid role).1
  | GameEvent.disconnect sid => (handleDisconnect s sid).1

/-- Run a sequence of inbound events from a state. -/
def run (s : ServerState) (es : List GameEvent) : ServerState :=
  es.foldl step s

/-- Does an event list contain a `startRoll` broadcast?  (Checks the
constructor only, so it is kernel-computable even though dice payloads
involve rational arithmetic.) -/
def isStartRoll : Event → Bool
  | Event.emitAll (OutMsg.startRoll _) => true
  | _ => false

/-! ### Lemmas about the map/set helpers -/

theorem mapGet_eq_some_mem {α β : Type} [DecidableEq α] {m : List (α × β)} {k : α} {v : β}
    (h : mapGet m k = some v) : (k, v) ∈ m := by
  unfold mapGet at h
  cases hf : m.find? (fun e => decide (e.1 = k)) with
  | none => rw [hf] at h; simp at h
  | some e =>
    rw [hf] at h
    simp at h
    have he := List.find?_some hf
    have hmem := List.mem_of_find?_eq_some hf
    simp at he
    have : e = (k, v) := by
      cases e with
      | mk a b => simp_all
    rwa [this] at hmem

theorem mem_mapGet {α β : Type} [DecidableEq α] {m : List (α × β)}
    (nd : (m.map Prod.fst).Nodup) {k : α} {v : β} (h : (k, v) ∈ m) :
    mapGet m k = some v := by
  induction m with
  | nil => simp at h
  | cons e t ih =>
    simp only [List.map_cons, List.nodup_cons] at nd
    rcases List.mem_cons.mp h with h1 | h2
    · unfold mapGet
      rw [List.find?_cons_of_pos _ (by simp [← h1])]
      simp [← h1]
    · have hek : e.1 ≠ k := by
        intro hk
        exact nd.1 (hk ▸ (List.mem_map.mpr ⟨(k, v), h2, rfl⟩))
      unfold mapGet
      rw [List.find?_cons_of_neg _ (by simp [hek])]
      exact ih nd.2 h2

theorem mem_keys_iff {α β : Type} {m : List (α × β)} {k : α} :
    k ∈ m.map Prod.fst ↔ ∃ v, (k, v) ∈ m := by
  constructor
  · intro h
    rcases List.mem_map.mp h with ⟨e, he, hk⟩
    exact ⟨e.2, by cases e; simp_all⟩
  · rintro ⟨v, hv⟩
    exact List.mem_map.mpr ⟨(k, v), hv, rfl⟩

theorem mapGet_eq_none_iff {α β : Type} [DecidableEq α] {m : List (α × β)} {k : α} :
    mapGet m k = none ↔ k ∉ m.map Prod.fst := by
  unfold mapGet
  simp only [Option.map_eq_none', List.find?_eq_none, decide_eq_true_eq]
  constructor
  · intro h hk
    rcases mem_keys_iff.mp hk with ⟨v, hv⟩
    exact h (k, v) hv rfl
  · intro h e he hek
    exact h (mem_keys_iff.mpr ⟨e.2, by cases e; simp_all⟩)

theorem mem_eq_of_nodup_keys {α β : Type} [DecidableEq α] {m : List (α × β)}
    (nd : (m.map Prod.fst).Nodup) {k : α} {v w : β}
    (h1 : (k, v) ∈ m) (h2 : (k, w) ∈ m) : v = w := by
  have e1 := mem_mapGet nd h1
  have e2 := mem_mapGet nd h2
  rw [e1] at e2
  exact Option.some.inj e2

theorem mapSet_of_not_mem {α β : Type} [DecidableEq α] {m : List (α × β)} {k : α}
    (h : k ∉ m.map Prod.fst) (v : β) : mapSet m k v = m ++ [(k, v)] := by
  simp [mapSet, h]

theorem mem_mapDelete_iff {α β : Type} [DecidableEq α] {m : List (α × β)} {k : α}
    {e : α × β} : e ∈ mapDelete m k ↔ e ∈ m ∧ e.1 ≠ k := by
  simp [mapDelete]

theorem mem_setAdd_iff {α : Type} [DecidableEq α] {s : List α} {a x : α} :
    x ∈ setAdd s a ↔ x ∈ s ∨ x = a := by
  unfold setAdd
  by_cases h : a ∈ s
  · simp only [if_pos h]
    constructor
    · exact Or.inl
    · rintro (hx | rfl) <;> [exact hx; exact h]
  · simp [if_neg h]

theorem mem_setDelete_iff {α : Type} [DecidableEq α] {s : List α} {a x : α} :
    x ∈ setDelete s a ↔ x ∈ s ∧ x ≠ a := by
  simp [setDelete]

/-! ### Basic lemmas about `tryStartRoll` -/

theorem tryStartRoll_eq_of_allReady (random : Role → Nat → ℚ) {s : ServerState}
    (h : allReady s) :
    tryStartRoll random s =
      ({ s with readySet := [] },
       [Event.emitAll (OutMsg.startRoll
          ((onlineRoles s).map (fun role => (role, generateDicePoints (random role)))))]) := by
  simp [tryStartRoll, h]

theorem tryStartRoll_eq_of_not_allReady (random : Role → Nat → ℚ) {s : ServerState}
    (h : ¬ allReady s) : tryStartRoll random s = (s, []) := by
  simp [tryStartRoll, h]

/-- C1: the readiness-barrier evaluation (`tryStartRoll`) broadcasts a
`startRoll` event if and only if the set of online roles is non-empty and
every online role is in the ready set, and whenever that condition holds it
also clears the ready set.  In particular it never fires with nobody
online, and never fires while some online role is not ready. -/
theorem tryStartRoll_fires_iff_all_online_ready (random : Role → Nat → ℚ)
    (s : ServerState) :
    ((∃ pts, Event.emitAll (OutMsg.startRoll pts) ∈ (tryStartRoll random s).2) ↔
      (onlineRoles s ≠ [] ∧ ∀ r ∈ onlineRoles s, r ∈ s.readySet)) ∧
    ((onlineRoles s ≠ [] ∧ ∀ r ∈ onlineRoles s, r ∈ s.readySet) →
      (tryStartRoll random s).1.readySet = []) := by
  have hiff : allReady s ↔ (onlineRoles s ≠ [] ∧ ∀ r ∈ onlineRoles s, r ∈ s.readySet) := by
    unfold allReady
    rw [List.length_pos]
  by_cases h : allReady s
  · rw [tryStartRoll_eq_of_allReady random h]
    constructor
    · simp only [List.mem_singleton]
      constructor
      · intro _; exact hiff.mp h
      · intro _; exact ⟨_, rfl⟩
    · intro _; rfl
  · rw [tryStartRoll_eq_of_not_allReady random h]
    constructor
    · simp only [List.not_mem_nil]
      constructor
      · rintro ⟨pts, hpts⟩; exact absurd hpts (by simp)
      · intro hc; exact absurd (hiff.mpr hc) h
    · intro hc; exact absurd (hiff.mpr hc) h

/-- C10: firing the barrier mutates only the ready set — `tryStartRoll`
leaves `players` and `socketToRole` untouched in every state. -/
theorem tryStartRoll_frame_players_socketToRole (random : Role → Nat → ℚ)
    (s : ServerState) :
    (tryStartRoll random s).1.players = s.players ∧
    (tryStartRoll random s).1.socketToRole = s.socketToRole := by
  by_cases h : allReady s
  · rw [tryStartRoll_eq_of_allReady random h]; exact ⟨rfl, rfl⟩
  · rw [tryStartRoll_eq_of_not_allReady random h]; exact ⟨rfl, rfl⟩

/-- C7: with every `Math.random()` result in `[0, 1)`, `generateDicePoints`
returns exactly 5 integers, each between 1 and 6. -/
theorem generateDicePoints_length_and_range (random : Nat → ℚ)
    (h : ∀ i, 0 ≤ random i ∧ random i < 1) :
    (generateDicePoints random).length = 5 ∧
    ∀ x ∈ generateDicePoints random, 1 ≤ x ∧ x ≤ 6 := by
  constructor
  · simp [generateDicePoints]
  · intro x hx
    simp only [generateDicePoints, List.mem_map, List.mem_range] at hx
    obtain ⟨i, _, rfl⟩ := hx
    have h0 := (h i).1
    have h1 := (h i).2
    have hlow : (0 : ℤ) ≤ ⌊random i * 6⌋ := by
      apply Int.floor_nonneg.mpr
      positivity
    have hhigh : ⌊random i * 6⌋ < 6 := by
      apply Int.floor_lt.mpr
      push_cast
      nlinarith
    omega

/-- Witness for C7 at the oracle constantly 0. -/
theorem generateDicePoints_length_and_range_witness :
    (generateDicePoints (fun _ => 0)).length = 5 ∧
    ∀ x ∈ generateDicePoints (fun _ => 0), 1 ≤ x ∧ x ≤ 6 :=
  generateDicePoints_length_and_range (fun _ => 0) (fun i => by norm_num)

/-! ### Concrete scenario states used by witnesses and counterexamples -/

/-- A degenerate `Math.random` oracle: every call returns 0 (a legal
return value, giving every die the value 1). -/
def rand0 : Role → Nat → ℚ := fun _ _ => 0

/-- State after socket 1 successfully claims role 建广. -/
def sClaimed : ServerState := (selectRole initState 1 "建广").1

/-- State reached by: sockets 1, 2, 3 claim 建广, 建国, 李川; sockets 1 and 2
signal ready (no round fires, 李川 is not ready); socket 3 disconnects.
Afterwards the online roles are 建广 and 建国 and both are in the ready
set — the barrier condition holds but was never evaluated. -/
def sTwoReady : ServerState :=
  run initState
    [GameEvent.select 1 "建广", GameEvent.select 2 "建国", GameEvent.select 3 "李川",
     GameEvent.ready 1 "建广" rand0, GameEvent.ready 2 "建国" rand0,
     GameEvent.disconnect 3]

/-! ### Claim theorems: selectRole, playerReady, handleDisconnect -/

/-- C3: `selectRole` checks InvalidRole, then RoleTaken, then
AlreadyClaimed; the first failing check yields a single error reply to the
requester and no state change; on success both maps gain exactly one
entry, the ready set is untouched, the requester gets a success reply, and
the updated roster is broadcast to all connections. -/
theorem selectRole_check_order_and_effects (s : ServerState) (sid : SocketId)
    (role : Role) :
    (role ∉ FIXED_ROLES →
      selectRole s sid role =
        (s, [Event.emitTo sid (OutMsg.roleAssignedErr "无效的角色")])) ∧
    (role ∈ FIXED_ROLES → role ∈ s.players.map Prod.fst →
      selectRole s sid role =
        (s, [Event.emitTo sid (OutMsg.roleAssignedErr "该角色已被选走")])) ∧
    (role ∈ FIXED_ROLES → role ∉ s.players.map Prod.fst →
      sid ∈ s.socketToRole.map Prod.fst →
      selectRole s sid role =
        (s, [Event.emitTo sid (OutMsg.roleAssignedErr "你已经选择过角色，不能更换")])) ∧
    (role ∈ FIXED_ROLES → role ∉ s.players.map Prod.fst →
      sid ∉ s.socketToRole.map Prod.fst →
      (selectRole s sid role).1.players = s.players ++ [(role, ⟨sid, role⟩)] ∧
      (selectRole s sid role).1.socketToRole = s.socketToRole ++ [(sid, role)] ∧
      (selectRole s sid role).1.readySet = s.readySet ∧
      (selectRole s sid role).2 =
        [Event.emitTo sid (OutMsg.roleAssignedOk role),
         Event.emitAll (OutMsg.playersUpdate (playerList (selectRole s sid role).1))]) := by
  refine ⟨?_, ?_, ?_, ?_⟩
  · intro h1
    simp [selectRole, h1]
  · intro h1 h2
    simp [selectRole, h1, h2]
  · intro h1 h2 h3
    simp [selectRole, h1, h2, h3]
  · intro h1 h2 h3
    simp [selectRole, h1, h2, h3, mapSet_of_not_mem h2, mapSet_of_not_mem h3]

/-- Witness for C3: each branch exercised from concrete states. -/
theorem selectRole_check_order_and_effects_witness :
    (selectRole sClaimed 2 "不存在" =
      (sClaimed, [Event.emitTo 2 (OutMsg.roleAssignedErr "无效的角色")])) ∧
    (selectRole sClaimed 2 "建广" =
      (sClaimed, [Event.emitTo 2 (OutMsg.roleAssignedErr "该角色已被选走")])) ∧
    (selectRole sClaimed 1 "建国" =
      (sClaimed, [Event.emitTo 1 (OutMsg.roleAssignedErr "你已经选择过角色，不能更换")])) ∧
    ((selectRole sClaimed 2 "建国").1.players =
        sClaimed.players ++ [("建国", ⟨2, "建国"⟩)] ∧
      (selectRole sClaimed 2 "建国").1.socketToRole =
        sClaimed.socketToRole ++ [(2, "建国")] ∧
      (selectRole sClaimed 2 "建国").1.readySet = sClaimed.readySet ∧
      (selectRole sClaimed 2 "建国").2 =
        [Event.emitTo 2 (OutMsg.roleAssignedOk "建国"),
         Event.emitAll (OutMsg.playersUpdate (playerList (selectRole sClaimed 2 "建国").1))]) :=
  ⟨(selectRole_check_order_and_effects sClaimed 2 "不存在").1 (by decide),
   (selectRole_check_order_and_effects sClaimed 2 "建广").2.1 (by decide) (by decide),
   (selectRole_check_order_and_effects sClaimed 1 "建国").2.2.1 (by decide) (by decide)
     (by decide),
   (selectRole_check_order_and_effects sClaimed 2 "建国").2.2.2 (by decide) (by decide)
     (by decide)⟩

/-- Socket `sid` currently owns `role`: the role is online and its stored
socket id is `sid`. -/
def ownsRole (s : ServerState) (sid : SocketId) (role : Role) : Prop :=
  ∃ p, mapGet s.players role = some p ∧ p.socketId = sid

instance (s : ServerState) (sid : SocketId) (role : Role) :
    Decidable (ownsRole s sid role) := by
  unfold ownsRole
  cases h : mapGet s.players role with
  | none =>
    exact isFalse (by rintro ⟨p, hp, _⟩; cases hp)
  | some p =>
    by_cases hs : p.socketId = sid
    · exact isTrue ⟨p, rfl, hs⟩
    · refine isFalse ?_
      rintro ⟨q, hq, hqs⟩
      have : p = q := Option.some.inj hq
      exact hs (this ▸ hqs)

/-- C9: `playerReady` fails iff the role is not online or is owned by a
different socket; on failure the state is unchanged and exactly one error
notice goes to the caller only; on success a someone-ready notice goes to
every connection except the caller, and no error notice is emitted. -/
theorem playerReady_validation_and_notice (random : Role → Nat → ℚ)
    (s : ServerState) (sid : SocketId) (role : Role) :
    (¬ ownsRole s sid role →
      playerReady random s sid role =
        (s, [Event.emitTo sid (OutMsg.errorMsg "你不是该角色或角色不在线")])) ∧
    (ownsRole s sid role →
      ∃ rest, (playerReady random s sid role).2 =
          Event.emitOthers sid (OutMsg.someoneReady role) :: rest ∧
        ∀ m, Event.emitTo sid (OutMsg.errorMsg m) ∉ rest) := by
  constructor
  · intro h
    unfold playerReady
    cases hg : mapGet s.players role with
    | none => rfl
    | some p =>
      have hp : p.socketId ≠ sid := fun hps => h ⟨p, hg, hps⟩
      simp [hp]
  · rintro ⟨p, hg, hp⟩
    have hred : playerReady random s sid role =
        ((tryStartRoll random { s with readySet := setAdd s.readySet role }).1,
         Event.emitOthers sid (OutMsg.someoneReady role) ::
           (tryStartRoll random { s with readySet := setAdd s.readySet role }).2) := by
      unfold playerReady
      rw [hg]
      simp [hp]
    rw [hred]
    refine ⟨(tryStartRoll random { s with readySet := setAdd s.readySet role }).2,
      rfl, ?_⟩
    intro m hm
    by_cases hA : allReady { s with readySet := setAdd s.readySet role }
    · rw [tryStartRoll_eq_of_allReady random hA] at hm
      simp at hm
    · rw [tryStartRoll_eq_of_not_allReady random hA] at hm
      simp at hm

/-- Witness for C9: socket 2 does not own 建广 in `sClaimed` (failure
branch); socket 1 does (success branch). -/
theorem playerReady_validation_and_notice_witness :
    (playerReady rand0 sClaimed 2 "建广" =
      (sClaimed, [Event.emitTo 2 (OutMsg.errorMsg "你不是该角色或角色不在线")])) ∧
    (∃ rest, (playerReady rand0 sClaimed 1 "建广").2 =
        Event.emitOthers 1 (OutMsg.someoneReady "建广") :: rest ∧
      ∀ m, Event.emitTo 1 (OutMsg.errorMsg m) ∉ rest) :=
  ⟨(playerReady_validation_and_notice rand0 sClaimed 2 "建广").1 (by decide),
   (playerReady_validation_and_notice rand0 sClaimed 1 "建广").2 (by decide)⟩

/-- C6: disconnecting a socket that owns a role removes exactly that role
from `players`, that socket from `socketToRole`, and that role (and only
it) from `readySet`, broadcasts the updated roster, and never emits a
`startRoll` — the barrier is not evaluated on disconnect, so the ready set
is filtered, never cleared. -/
theorem handleDisconnect_cleans_and_never_rolls (s : ServerState)
    (sid : SocketId) (role : Role) (h : mapGet s.socketToRole sid = some role) :
    (handleDisconnect s sid).1.players = mapDelete s.players role ∧
    (handleDisconnect s sid).1.socketToRole = mapDelete s.socketToRole sid ∧
    (handleDisconnect s sid).1.readySet = setDelete s.readySet role ∧
    role ∉ (handleDisconnect s sid).1.players.map Prod.fst ∧
    sid ∉ (handleDisconnect s sid).1.socketToRole.map Prod.fst ∧
    role ∉ (handleDisconnect s sid).1.readySet ∧
    (∀ r, r ≠ role → ((r ∈ (handleDisconnect s sid).1.readySet) ↔ r ∈ s.readySet)) ∧
    (handleDisconnect s sid).2 =
      [Event.emitAll (OutMsg.playersUpdate (playerList (handleDisconnect s sid).1))] ∧
    ∀ pts, Event.emitAll (OutMsg.startRoll pts) ∉ (handleDisconnect s sid).2 := by
  unfold handleDisconnect
  rw [h]
  refine ⟨rfl, rfl, rfl, ?_, ?_, ?_, ?_, rfl, ?_⟩
  · simp [mapDelete, List.mem_map, List.mem_filter]
  · simp [mapDelete, List.mem_map, List.mem_filter]
  · simp [mem_setDelete_iff]
  · intro r hr
    simp [mem_setDelete_iff, hr]
  · intro pts
    simp

/-- Witness for C6 at `sTwoReady`: disconnecting socket 2 (role 建国)
leaves online = ready = [建广] and still fires no round — the ready set is
not cleared, only 建国 is dropped from it. -/
theorem handleDisconnect_cleans_and_never_rolls_witness :
    (handleDisconnect sTwoReady 2).1.players = mapDelete sTwoReady.players "建国" ∧
    (handleDisconnect sTwoReady 2).1.socketToRole = mapDelete sTwoReady.socketToRole 2 ∧
    (handleDisconnect sTwoReady 2).1.readySet = setDelete sTwoReady.readySet "建国" ∧
    "建国" ∉ (handleDisconnect sTwoReady 2).1.players.map Prod.fst ∧
    (2 : SocketId) ∉ (handleDisconnect sTwoReady 2).1.socketToRole.map Prod.fst ∧
    "建国" ∉ (handleDisconnect sTwoReady 2).1.readySet ∧
    (∀ r, r ≠ "建国" → ((r ∈ (handleDisconnect sTwoReady 2).1.readySet) ↔ r ∈ sTwoReady.readySet)) ∧
    (handleDisconnect sTwoReady 2).2 =
      [Event.emitAll (OutMsg.playersUpdate (playerList (handleDisconnect sTwoReady 2).1))] ∧
    ∀ pts, Event.emitAll (OutMsg.startRoll pts) ∉ (handleDisconnect sTwoReady 2).2 :=
  handleDisconnect_cleans_and_never_rolls sTwoReady 2 "建国" (by decide)

/-! ### C4: second claims do not always fail with AlreadyClaimed -/

/-- C4 counterexample: socket 1 has completed a successful claim (建广) and
is still live (present in `socketToRole`), yet a subsequent claim for a
role outside the fixed set replies InvalidRole, and (from `sTwoReady`) a
claim for a role taken by socket 2 replies RoleTaken — neither reply is
the AlreadyClaimed message, because that check runs last. -/
theorem second_claim_not_always_already_claimed :
    (1 : SocketId) ∈ sClaimed.socketToRole.map Prod.fst ∧
    ((selectRole sClaimed 1 "不存在").2 =
      [Event.emitTo 1 (OutMsg.roleAssignedErr "无效的角色")]) ∧
    (1 : SocketId) ∈ sTwoReady.socketToRole.map Prod.fst ∧
    ((selectRole sTwoReady 1 "建国").2 =
      [Event.emitTo 1 (OutMsg.roleAssignedErr "该角色已被选走")]) ∧
    ("无效的角色" ≠ "你已经选择过角色，不能更换") ∧
    ("该角色已被选走" ≠ "你已经选择过角色，不能更换") := by decide

/-- C4 (amended): every subsequent claim attempt by a connection that has
already claimed (and is still live, i.e. still in `socketToRole`) fails
with no state change and a single error reply; the reply is AlreadyClaimed
exactly when the requested role is in the fixed set and currently free,
while an invalid or taken requested role draws InvalidRole or RoleTaken
instead (those checks run first). -/
theorem second_claim_always_fails (s : ServerState) (sid : SocketId)
    (role : Role) (h : sid ∈ s.socketToRole.map Prod.fst) :
    (selectRole s sid role).1 = s ∧
    (∃ m, (selectRole s sid role).2 = [Event.emitTo sid (OutMsg.roleAssignedErr m)]) ∧
    (role ∈ FIXED_ROLES → role ∉ s.players.map Prod.fst →
      (selectRole s sid role).2 =
        [Event.emitTo sid (OutMsg.roleAssignedErr "你已经选择过角色，不能更换")]) := by
  by_cases h1 : role ∈ FIXED_ROLES
  · by_cases h2 : role ∈ s.players.map Prod.fst
    · exact ⟨by simp [selectRole, h1, h2],
        ⟨"该角色已被选走", by simp [selectRole, h1, h2]⟩,
        fun _ hc => absurd h2 hc⟩
    · exact ⟨by simp [selectRole, h1, h2, h],
        ⟨"你已经选择过角色，不能更换", by simp [selectRole, h1, h2, h]⟩,
        fun _ _ => by simp [selectRole, h1, h2, h]⟩
  · exact ⟨by simp [selectRole, h1],
      ⟨"无效的角色", by simp [selectRole, h1]⟩,
      fun hc _ => absurd hc h1⟩

/-- Witness for the amended C4: socket 1 re-claims, asking for the free
valid role 建国, and is refused with AlreadyClaimed. -/
theorem second_claim_always_fails_witness :
    (selectRole sClaimed 1 "建国").1 = sClaimed ∧
    (∃ m, (selectRole sClaimed 1 "建国").2 = [Event.emitTo 1 (OutMsg.roleAssignedErr m)]) ∧
    ("建国" ∈ FIXED_ROLES → "建国" ∉ sClaimed.players.map Prod.fst →
      (selectRole sClaimed 1 "建国").2 =
        [Event.emitTo 1 (OutMsg.roleAssignedErr "你已经选择过角色，不能更换")]) :=
  second_claim_always_fails sClaimed 1 "建国" (by decide)

/-! ### C8: re-signaling ready is not a complete no-op -/

/-- C8 counterexample: in `sTwoReady`, role 建广 is already in the ready
set and validly owned by socket 1, yet re-signaling ready is not a no-op:
the ready set is cleared (it was non-empty), another someone-ready notice
is broadcast, and a round is triggered. -/
theorem resignal_not_noop :
    "建广" ∈ sTwoReady.readySet ∧
    mapGet sTwoReady.players "建广" = some ⟨1, "建广"⟩ ∧
    (playerReady rand0 sTwoReady 1 "建广").1.readySet = [] ∧
    sTwoReady.readySet ≠ [] ∧
    Event.emitOthers 1 (OutMsg.someoneReady "建广") ∈
      (playerReady rand0 sTwoReady 1 "建广").2 ∧
    (playerReady rand0 sTwoReady 1 "建广").2.any isStartRoll = true := by decide

/-- C8 (amended): re-signaling an already-ready, validly owned role leaves
`players` and `socketToRole` unchanged and adds nothing to the ready set,
but it does emit another someone-ready notice and re-evaluates the
barrier: a round fires (clearing the ready set) iff all online roles are
ready at that moment; only when the barrier does not fire is the state
completely unchanged. -/
theorem resignal_effects (random : Role → Nat → ℚ) (s : ServerState)
    (sid : SocketId) (role : Role) (hown : ownsRole s sid role)
    (hready : role ∈ s.readySet) :
    (playerReady random s sid role).1.players = s.players ∧
    (playerReady random s sid role).1.socketToRole = s.socketToRole ∧
    Event.emitOthers sid (OutMsg.someoneReady role) ∈
      (playerReady random s sid role).2 ∧
    ((∃ pts, Event.emitAll (OutMsg.startRoll pts) ∈ (playerReady random s sid role).2) ↔
      allReady s) ∧
    (allReady s → (playerReady random s sid role).1.readySet = []) ∧
    (¬ allReady s → (playerReady random s sid role).1 = s) := by
  obtain ⟨p, hg, hp⟩ := hown
  have hadd : setAdd s.readySet role = s.readySet := by simp [setAdd, hready]
  have hs1 : ({ s with readySet := setAdd s.readySet role } : ServerState) = s := by
    rw [hadd]
  have hred : playerReady random s sid role =
      ((tryStartRoll random s).1,
       Event.emitOthers sid (OutMsg.someoneReady role) :: (tryStartRoll random s).2) := by
    unfold playerReady
    rw [hg]
    simp [hp, hs1]
  rw [hred]
  by_cases hA : allReady s
  · rw [tryStartRoll_eq_of_allReady random hA]
    refine ⟨rfl, rfl, by simp, ?_, fun _ => rfl, fun hc => absurd hA hc⟩
    constructor
    · intro _; exact hA
    · intro _
      exact ⟨(onlineRoles s).map (fun role => (role, generateDicePoints (random role))),
        by simp⟩
  · rw [tryStartRoll_eq_of_not_allReady random hA]
    refine ⟨rfl, rfl, by simp, ?_, fun hc => absurd hc hA, fun _ => rfl⟩
    constructor
    · rintro ⟨pts, hpts⟩; simp at hpts
    · intro hc; exact absurd hc hA

/-- Witness for the amended C8 at `sTwoReady` (barrier condition holds, so
the re-signal fires a round). -/
theorem resignal_effects_witness :
    (playerReady rand0 sTwoReady 1 "建广").1.players = sTwoReady.players ∧
    (playerReady rand0 sTwoReady 1 "建广").1.socketToRole = sTwoReady.socketToRole ∧
    Event.emitOthers 1 (OutMsg.someoneReady "建广") ∈
      (playerReady rand0 sTwoReady 1 "建广").2 ∧
    ((∃ pts, Event.emitAll (OutMsg.startRoll pts) ∈ (playerReady rand0 sTwoReady 1 "建广").2) ↔
      allReady sTwoReady) ∧
    (allReady sTwoReady → (playerReady rand0 sTwoReady 1 "建广").1.readySet = []) ∧
    (¬ allReady sTwoReady → (playerReady rand0 sTwoReady 1 "建广").1 = sTwoReady) :=
  resignal_effects rand0 sTwoReady 1 "建广" (by decide) (by decide)

/-! ### C5: the round broadcast covers exactly the online roles -/

theorem generateDicePoints_zero :
    generateDicePoints (fun _ => 0) = [1, 1, 1, 1, 1] := by
  simp [generateDicePoints, List.range_succ]

/-- C5: whenever the barrier fires, the ready set is empty immediately
afterwards, and the broadcast `roundPoints` mapping lists exactly the
roles that were online at the instant of firing — each exactly once
(online keys are unique), no other role at all. -/
theorem startRoll_payload_exact (random : Role → Nat → ℚ) (s : ServerState)
    (pts : List (Role × List ℤ))
    (hfire : Event.emitAll (OutMsg.startRoll pts) ∈ (tryStartRoll random s).2)
    (hnd : (onlineRoles s).Nodup) :
    (tryStartRoll random s).1.readySet = [] ∧
    pts.map Prod.fst = onlineRoles s ∧
    (∀ r ∈ onlineRoles s, (pts.map Prod.fst).count r = 1) ∧
    (∀ r, r ∉ onlineRoles s → (pts.map Prod.fst).count r = 0) := by
  by_cases hA : allReady s
  · rw [tryStartRoll_eq_of_allReady random hA] at hfire ⊢
    simp only [List.mem_singleton, Event.emitAll.injEq, OutMsg.startRoll.injEq] at hfire
    have hmap : pts.map Prod.fst = onlineRoles s := by
      rw [hfire, List.map_map]
      exact List.map_id _
    refine ⟨rfl, hmap, ?_, ?_⟩
    · intro r hr
      rw [hmap]
      exact List.count_eq_one_of_mem hnd hr
    · intro r hr
      rw [hmap]
      exact List.count_eq_zero.mpr hr
  · rw [tryStartRoll_eq_of_not_allReady random hA] at hfire
    simp at hfire

/-- Witness for C5 at `sTwoReady` with the all-zero oracle. -/
theorem startRoll_payload_exact_witness :
    (tryStartRoll rand0 sTwoReady).1.readySet = [] ∧
    (([("建广", ([1, 1, 1, 1, 1] : List ℤ)), ("建国", [1, 1, 1, 1, 1])]).map Prod.fst =
      onlineRoles sTwoReady) ∧
    (∀ r ∈ onlineRoles sTwoReady,
      (([("建广", ([1, 1, 1, 1, 1] : List ℤ)), ("建国", [1, 1, 1, 1, 1])]).map Prod.fst).count r = 1) ∧
    (∀ r, r ∉ onlineRoles sTwoReady →
      (([("建广", ([1, 1, 1, 1, 1] : List ℤ)), ("建国", [1, 1, 1, 1, 1])]).map Prod.fst).count r = 0) := by
  have hfire : Event.emitAll
      (OutMsg.startRoll [("建广", [1, 1, 1, 1, 1]), ("建国", [1, 1, 1, 1, 1])]) ∈
      (tryStartRoll rand0 sTwoReady).2 := by
    rw [tryStartRoll_eq_of_allReady rand0 (by decide)]
    have hon : onlineRoles sTwoReady = ["建广", "建国"] := by decide
    rw [hon]
    have hzero : ∀ role : Role, generateDicePoints (rand0 role) = [1, 1, 1, 1, 1] := by
      intro role
      exact generateDicePoints_zero
    simp [hzero]
  exact startRoll_payload_exact rand0 sTwoReady _ hfire (by decide)

/-! ### C2: the two maps are mutually inverse and the ready set is a
subset of the online roles, in every reachable state -/

/-- The strong induction invariant: both maps have unique keys, they are
mutually inverse entry-wise, and every ready role is online. -/
structure StateInv (s : ServerState) : Prop where
  ndP : (s.players.map Prod.fst).Nodup
  ndS : (s.socketToRole.map Prod.fst).Nodup
  fwd : ∀ r p, (r, p) ∈ s.players → (p.socketId, r) ∈ s.socketToRole
  bwd : ∀ c r, (c, r) ∈ s.socketToRole → ∃ p, (r, p) ∈ s.players ∧ p.socketId = c
  rdy : ∀ r ∈ s.readySet, r ∈ s.players.map Prod.fst

theorem selectRole_success_state (s : ServerState) (sid : SocketId) (role : Role)
    (h1 : role ∈ FIXED_ROLES) (h2 : role ∉ s.players.map Prod.fst)
    (h3 : sid ∉ s.socketToRole.map Prod.fst) :
    (selectRole s sid role).1 =
      { s with players := s.players ++ [(role, ⟨sid, role⟩)],
               socketToRole := s.socketToRole ++ [(sid, role)] } := by
  simp [selectRole, h1, h2, h3, mapSet_of_not_mem h2, mapSet_of_not_mem h3]

theorem inv_selectRole (s : ServerState) (sid : SocketId) (role : Role)
    (h : StateInv s) : StateInv (selectRole s sid role).1 := by
  by_cases h1 : role ∈ FIXED_ROLES
  · by_cases h2 : role ∈ s.players.map Prod.fst
    · have hs : (selectRole s sid role).1 = s := by simp [selectRole, h1, h2]
      rwa [hs]
    · by_cases h3 : sid ∈ s.socketToRole.map Prod.fst
      · have hs : (selectRole s sid role).1 = s := by simp [selectRole, h1, h2, h3]
        rwa [hs]
      · rw [selectRole_success_state s sid role h1 h2 h3]
        refine ⟨?_, ?_, ?_, ?_, ?_⟩
        · simp only [List.map_append, List.map_cons, List.map_nil]
          rw [List.nodup_append]
          refine ⟨h.ndP, by simp, ?_⟩
          intro x hx hx'
          simp only [List.mem_singleton] at hx'
          exact h2 (hx' ▸ hx)
        · simp only [List.map_append, List.map_cons, List.map_nil]
          rw [List.nodup_append]
          refine ⟨h.ndS, by simp, ?_⟩
          intro x hx hx'
          simp only [List.mem_singleton] at hx'
          exact h3 (hx' ▸ hx)
        · intro r p hm
          rcases List.mem_append.mp hm with hold | hnew
          · exact List.mem_append_left _ (h.fwd r p hold)
          · rw [List.mem_singleton] at hnew
            rw [Prod.mk.injEq] at hnew
            obtain ⟨rfl, rfl⟩ := hnew
            simp
        · intro c r hm
          rcases List.mem_append.mp hm with hold | hnew
          · obtain ⟨p, hp, hpc⟩ := h.bwd c r hold
            exact ⟨p, List.mem_append_left _ hp, hpc⟩
          · rw [List.mem_singleton] at hnew
            rw [Prod.mk.injEq] at hnew
            obtain ⟨rfl, rfl⟩ := hnew
            exact ⟨⟨c, r⟩, by simp, rfl⟩
        · intro r hr
          simp only [List.map_append, List.map_cons, List.map_nil]
          exact List.mem_append_left _ (h.rdy r hr)
  · have hs : (selectRole s sid role).1 = s := by simp [selectRole, h1]
    rwa [hs]

theorem inv_tryStartRoll (random : Role → Nat → ℚ) (s : ServerState)
    (h : StateInv s) : StateInv (tryStartRoll random s).1 := by
  by_cases hA : allReady s
  · rw [tryStartRoll_eq_of_allReady random hA]
    exact ⟨h.ndP, h.ndS, h.fwd, h.bwd, by simp⟩
  · rw [tryStartRoll_eq_of_not_allReady random hA]
    exact h

theorem inv_playerReady (random : Role → Nat → ℚ) (s : ServerState)
    (sid : SocketId) (role : Role) (h : StateInv s) :
    StateInv (playerReady random s sid role).1 := by
  cases hg : mapGet s.players role with
  | none =>
    have hs : (playerReady random s sid role).1 = s := by
      unfold playerReady
      rw [hg]
    rwa [hs]
  | some p =>
    by_cases hp : p.socketId = sid
    · have hred : (playerReady random s sid role).1 =
          (tryStartRoll random { s with readySet := setAdd s.readySet role }).1 := by
        unfold playerReady
        rw [hg]
        simp [hp]
      rw [hred]
      apply inv_tryStartRoll
      refine ⟨h.ndP, h.ndS, h.fwd, h.bwd, ?_⟩
      intro r hr
      rcases mem_setAdd_iff.mp hr with hr' | rfl
      · exact h.rdy r hr'
      · exact mem_keys_iff.mpr ⟨p, mapGet_eq_some_mem hg⟩
    · have hs : (playerReady random s sid role).1 = s := by
        unfold playerReady
        rw [hg]
        simp [hp]
      rwa [hs]

theorem inv_handleDisconnect (s : ServerState) (sid : SocketId) (h : StateInv s) :
    StateInv (handleDisconnect s sid).1 := by
  cases hg : mapGet s.socketToRole sid with
  | none =>
    have hs : handleDisconnect s sid = (s, []) := by
      unfold handleDisconnect
      rw [hg]
    rw [hs]
    exact h
  | some role0 =>
    have hst : (handleDisconnect s sid).1 =
        { players := mapDelete s.players role0,
          socketToRole := mapDelete s.socketToRole sid,
          readySet := setDelete s.readySet role0 } := by
      unfold handleDisconnect
      rw [hg]
    rw [hst]
    have hmem : (sid, role0) ∈ s.socketToRole := mapGet_eq_some_mem hg
    refine ⟨?_, ?_, ?_, ?_, ?_⟩
    · exact h.ndP.sublist ((List.filter_sublist _).map Prod.fst)
    · exact h.ndS.sublist ((List.filter_sublist _).map Prod.fst)
    · intro r p hm
      rw [mem_mapDelete_iff] at hm
      obtain ⟨hm, hr⟩ := hm
      have hstr := h.fwd r p hm
      rw [mem_mapDelete_iff]
      refine ⟨hstr, ?_⟩
      intro hps
      have h1 : (sid, r) ∈ s.socketToRole := hps ▸ hstr
      exact hr (mem_eq_of_nodup_keys h.ndS h1 hmem)
    · intro c r hm
      rw [mem_mapDelete_iff] at hm
      obtain ⟨hm, hc⟩ := hm
      obtain ⟨p, hp, hpc⟩ := h.bwd c r hm
      refine ⟨p, ?_, hpc⟩
      rw [mem_mapDelete_iff]
      refine ⟨hp, ?_⟩
      intro hr0
      obtain ⟨q, hq, hqc⟩ := h.bwd sid role0 hmem
      have hpq : p = q := mem_eq_of_nodup_keys h.ndP (hr0 ▸ hp) hq
      exact hc (by rw [← hpc, hpq, hqc])
    · intro r hr
      rw [mem_setDelete_iff] at hr
      obtain ⟨hr, hrne⟩ := hr
      obtain ⟨v, hv⟩ := mem_keys_iff.mp (h.rdy r hr)
      exact mem_keys_iff.mpr ⟨v, mem_mapDelete_iff.mpr ⟨hv, hrne⟩⟩

theorem inv_step (s : ServerState) (e : GameEvent) (h : StateInv s) :
    StateInv (step s e) := by
  cases e with
  | select sid role => exact inv_selectRole s sid role h
  | ready sid role random => exact inv_playerReady random s sid role h
  | disconnect sid => exact inv_handleDisconnect s sid h

theorem inv_initState : StateInv initState :=
  ⟨by simp [initState], by simp [initState], by simp [initState],
   by simp [initState], by simp [initState]⟩

theorem inv_run (es : List GameEvent) : ∀ s, StateInv s → StateInv (run s es) := by
  induction es with
  | nil => intro s h; exact h
  | cons e t ih =>
    intro s h
    exact ih _ (inv_step s e h)

/-- The two maps are mutually inverse: role `r` is stored as owned by
socket `c` iff socket `c` is recorded as owning role `r`. -/
def MapsInverse (s : ServerState) : Prop :=
  ∀ r c, (∃ p, mapGet s.players r = some p ∧ p.socketId = c) ↔
    mapGet s.socketToRole c = some r

/-- Every role in the ready set is currently online. -/
def ReadySubset (s : ServerState) : Prop :=
  ∀ r ∈ s.readySet, r ∈ s.players.map Prod.fst

theorem inv_mapsInverse (s : ServerState) (h : StateInv s) : MapsInverse s := by
  intro r c
  constructor
  · rintro ⟨p, hg, hp⟩
    exact mem_mapGet h.ndS (hp ▸ h.fwd r p (mapGet_eq_some_mem hg))
  · intro hg
    obtain ⟨p, hp, hpc⟩ := h.bwd c r (mapGet_eq_some_mem hg)
    exact ⟨p, mem_mapGet h.ndP hp, hpc⟩

/-- C2: every state reachable by any sequence of claim, ready and
disconnect events keeps `players` and `socketToRole` mutually inverse
(so no role has two owners and no socket owns two roles) with the ready
set a subset of the online roles, and every further operation from such a
state preserves the joint invariant. -/
theorem reachable_maps_inverse_and_ready_subset (es : List GameEvent) :
    (MapsInverse (run initState es) ∧ ReadySubset (run initState es)) ∧
    ∀ e, MapsInverse (step (run initState es) e) ∧
      ReadySubset (step (run initState es) e) := by
  have h := inv_run es initState inv_initState
  refine ⟨⟨inv_mapsInverse _ h, h.rdy⟩, ?_⟩
  intro e
  have h2 := inv_step _ e h
  exact ⟨inv_mapsInverse _ h2, h2.rdy⟩

/-- Witness for C1 at `sTwoReady`, where the barrier condition holds. -/
theorem tryStartRoll_fires_iff_all_online_ready_witness :
    ((∃ pts, Event.emitAll (OutMsg.startRoll pts) ∈ (tryStartRoll rand0 sTwoReady).2) ↔
      (onlineRoles sTwoReady ≠ [] ∧ ∀ r ∈ onlineRoles sTwoReady, r ∈ sTwoReady.readySet)) ∧
    (tryStartRoll rand0 sTwoReady).1.readySet = [] :=
  ⟨(tryStartRoll_fires_iff_all_online_ready rand0 sTwoReady).1,
   (tryStartRoll_fires_iff_all_online_ready rand0 sTwoReady).2 (by decide)⟩

/-- Witness for C2 at the concrete event sequence behind `sTwoReady`. -/
theorem reachable_maps_inverse_and_ready_subset_witness :
    MapsInverse (run initState
      [GameEvent.select 1 "建广", GameEvent.select 2 "建国", GameEvent.select 3 "李川",
       GameEvent.ready 1 "建广" rand0, GameEvent.ready 2 "建国" rand0,
       GameEvent.disconnect 3]) ∧
    ReadySubset (run initState
      [GameEvent.select 1 "建广", GameEvent.select 2 "建国", GameEvent.select 3 "李川",
       GameEvent.ready 1 "建广" rand0, GameEvent.ready 2 "建国" rand0,
       GameEvent.disconnect 3]) :=
  (reachable_maps_inverse_and_ready_subset
    [GameEvent.select 1 "建广", GameEvent.select 2 "建国", GameEvent.select 3 "李川",
     GameEvent.ready 1 "建广" rand0, GameEvent.ready 2 "建国" rand0,
     GameEvent.disconnect 3]).1
